import Mathlib

/-
Verification development for the RISC-V PLIC driver in src/interrupts/plic.c.

The driver manipulates memory-mapped 32-bit registers. We embed the machine
state shallowly: a map from byte addresses to the 32-bit word stored at that
(4-byte aligned) address, together with the two logging channels used by the
facade (debug diagnostics and trace messages). Every load and store is a
full-width 32-bit access, so reads truncate to 32 bits and stores record a
32-bit value; the `mem` map over-approximates the register file at addresses
the hardware does not decode, which is exactly what the driver can address
through its pointer arithmetic.

The driver is compiled with the configurable macro PLIC_IOBASE as the single
base address; we make the base an explicit parameter `b` of every operation so
that relocation claims can be stated by quantifying over `b`.
-/

/-- Machine state seen by the driver: the 32-bit word stored at each 4-byte
aligned byte address, plus the two console channels. `dbg` records the
argument of each `debug` diagnostic emitted (most recent first) and `tr`
records the arguments of each `trace` call. -/
structure PlicState where
  mem : Nat → Nat
  dbg : List Int
  tr : List (Int × Int)

/-- Read of a volatile `uint32_t` register: the stored word, as a 32-bit value. -/
def PlicState.read (st : PlicState) (a : Nat) : Nat :=
  st.mem a % 2 ^ 32

/-- Write of a volatile `uint32_t` register at address `a`: the cell holds a
32-bit value, all other state is untouched. -/
def PlicState.store (st : PlicState) (a v : Nat) : PlicState :=
  { st with mem := fun x => if x = a then v % 2 ^ 32 else st.mem x }

/-- Compile-time default base address of the controller (`#define PLIC_IOBASE 0x0C000000`). -/
def PLIC_IOBASE : Nat := 0x0C000000

/-- Number of interrupt sources (`#define PLIC_SRCCNT 0x400`). -/
def PLIC_SRCCNT : Nat := 0x400

/-- Modelled from the spec: `PLIC_PRIO_MIN` is defined in `plic.h`, which is not
among the repository sources (only `plic.c` is). The spec states that `init`
"sets priority to the minimum" while the code implements this by writing the
literal 0, and that `PRIO_MIN`/`PRIO_MAX` "define the clamp range for priority
and threshold"; the minimum priority is therefore 0. -/
def PLIC_PRIO_MIN : Nat := 0

/-- Modelled from the spec: `PLIC_PRIO_MAX` is defined in `plic.h`, which is not
among the repository sources. The spec gives no numeric value; we use 7, the
standard RISC-V PLIC maximum priority. Every theorem below that involves it
depends only on `PLIC_PRIO_MIN ≤ PLIC_PRIO_MAX` and `PLIC_PRIO_MAX + 100`
exceeding `PLIC_PRIO_MAX`, not on the particular value. -/
def PLIC_PRIO_MAX : Nat := 7

/-- Global `pending` of plic.c: `PLIC_IOBASE + 0x1000`, parameterized by the base. -/
def pending (b : Nat) : Nat := b + 0x1000

/-- Global `enable` of plic.c: `PLIC_IOBASE + 0x2000`, parameterized by the base. -/
def enable (b : Nat) : Nat := b + 0x2000

/-- Global `threshold` of plic.c: `PLIC_IOBASE + 0x200000`, parameterized by the base. -/
def threshold (b : Nat) : Nat := b + 0x200000

/-- Global `claim` of plic.c: `PLIC_IOBASE + 0x200004`, parameterized by the base. -/
def claim (b : Nat) : Nat := b + 0x200004

/-- Bit pattern of a 32-bit word with all bits set; XOR with it models the C
`~` complement of an `int` once converted to `uint32_t`. -/
def mask32 : Nat := 2 ^ 32 - 1

/-- Translation of `plic_set_source_priority(uint32_t srcno, uint32_t level)`.
The C guard is `srcno > PLIC_SRCCNT || srcno == 0 || level < PLIC_PRIO_MIN`;
when it holds the function returns at once. The statement
`if(level > PLIC_PRIO_MAX) {level = PLIC_PRIO_MAX;}` of the C source sits
inside that guarded block, textually after the `return;`, so it is unreachable
dead code and contributes nothing to the behaviour; the else branch stores the
unclamped level at `PLIC_IOBASE + sizeof(uint32_t)*srcno`. -/
def plic_set_source_priority (b : Nat) (st : PlicState) (srcno lvl : Nat) : PlicState :=
  if srcno > PLIC_SRCCNT ∨ srcno = 0 ∨ lvl < PLIC_PRIO_MIN then
    st
  else
    st.store (b + 4 * srcno) lvl

/-- Translation of `plic_source_pending(uint32_t srcno)`: guard `srcno > PLIC_SRCCNT`
returns 0, otherwise read the pending word `srcno / 32`, mask bit `srcno % 32`,
and return whether the masked value is positive. -/
def plic_source_pending (b : Nat) (st : PlicState) (srcno : Nat) : Bool :=
  if srcno > PLIC_SRCCNT then
    false
  else
    let pend := st.read (pending b + 4 * (srcno / 32))
    decide (0 < (pend &&& (1 <<< (srcno % 32))))

/-- Translation of `plic_enable_source_for_context(uint32_t ctxno, uint32_t srcno)`:
guard `ctxno != 0 || srcno > PLIC_SRCCNT || srcno <= 0` (on `uint32_t`,
`srcno <= 0` means `srcno == 0`), else a read-modify-write OR of bit
`srcno % 32` into enable word `srcno / 32`. -/
def plic_enable_source_for_context (b : Nat) (st : PlicState) (ctxno srcno : Nat) : PlicState :=
  if ctxno ≠ 0 ∨ srcno > PLIC_SRCCNT ∨ srcno = 0 then
    st
  else
    let a := enable b + 4 * (srcno / 32)
    st.store a (st.read a ||| (1 <<< (srcno % 32)))

/-- Translation of `plic_disable_source_for_context(uint32_t ctxno, uint32_t srcid)`:
same guard, else a read-modify-write AND with the complement
`~(1 << (srcid % 32))` (as a 32-bit pattern) on enable word `srcid / 32`. -/
def plic_disable_source_for_context (b : Nat) (st : PlicState) (ctxno srcid : Nat) : PlicState :=
  if ctxno ≠ 0 ∨ srcid > PLIC_SRCCNT ∨ srcid = 0 then
    st
  else
    let a := enable b + 4 * (srcid / 32)
    st.store a (st.read a &&& (mask32 ^^^ (1 <<< (srcid % 32))))

/-- Translation of `plic_set_context_threshold(uint32_t ctxno, uint32_t level)`:
guard `ctxno != 0`, else write `level` (unmodified) to the threshold register. -/
def plic_set_context_threshold (b : Nat) (st : PlicState) (ctxno lvl : Nat) : PlicState :=
  if ctxno ≠ 0 then
    st
  else
    st.store (threshold b) lvl

/-- Translation of `plic_claim_context_interrupt(uint32_t ctxno)`: guard
`ctxno != 0` returns 0, else read the claim register. -/
def plic_claim_context_interrupt (b : Nat) (st : PlicState) (ctxno : Nat) : Nat :=
  if ctxno ≠ 0 then
    0
  else
    st.read (claim b)

/-- Translation of `plic_complete_context_interrupt(uint32_t ctxno, uint32_t srcno)`:
guard `ctxno != 0 || srcno > PLIC_SRCCNT || srcno <= 0`, else write `srcno`
to the claim register. -/
def plic_complete_context_interrupt (b : Nat) (st : PlicState) (ctxno srcno : Nat) : PlicState :=
  if ctxno ≠ 0 ∨ srcno > PLIC_SRCCNT ∨ srcno = 0 then
    st
  else
    st.store (claim b) srcno

/-- Conversion of a C `int` to `uint32_t`: reduction modulo 2^32 into [0, 2^32). -/
def toU32 (i : Int) : Nat := (i % (2 ^ 32 : Int)).toNat

/-- Translation of the facade `plic_enable_irq(int irqno, int prio)`: a trace
message, then `plic_set_source_priority(irqno, prio)` with both arguments
converted to `uint32_t`. -/
def plic_enable_irq (b : Nat) (st : PlicState) (irqno pr : Int) : PlicState :=
  let st1 : PlicState := { st with tr := (irqno, pr) :: st.tr }
  plic_set_source_priority b st1 (toU32 irqno) (toU32 pr)

/-- Translation of the facade `plic_disable_irq(int irqno)`: when `0 < irqno`,
`plic_set_source_priority(irqno, 0)`; otherwise a `debug` diagnostic and no
register access. -/
def plic_disable_irq (b : Nat) (st : PlicState) (irqno : Int) : PlicState :=
  if 0 < irqno then
    plic_set_source_priority b st (toU32 irqno) 0
  else
    { st with dbg := irqno :: st.dbg }

/-- First `n` iterations of the `plic_init` loop: iteration `i` performs
`plic_set_source_priority(i, 0)` followed by `plic_enable_source_for_context(0, i)`. -/
def plic_init_loop (b : Nat) (st : PlicState) : Nat → PlicState
  | 0 => st
  | n + 1 =>
    let st1 := plic_init_loop b st n
    plic_enable_source_for_context b (plic_set_source_priority b st1 n 0) 0 n

/-- Translation of `plic_init(void)`: the loop body runs for
`i = 0, 1, ..., PLIC_SRCCNT - 1`. -/
def plic_init (b : Nat) (st : PlicState) : PlicState :=
  plic_init_loop b st PLIC_SRCCNT

/-- Test state: every register cell reads 0, logs empty. -/
def stZero : PlicState := ⟨fun _ => 0, [], []⟩

/-- Test state: every register cell reads 1 (bit 0 set in every word), logs empty. -/
def stOnes : PlicState := ⟨fun _ => 1, [], []⟩

/-- Test state: every register cell reads 5, logs empty. -/
def stFive : PlicState := ⟨fun _ => 5, [], []⟩

/-- Test state: every register cell reads 32 (bit 5 set in every word), logs empty. -/
def stThirtyTwo : PlicState := ⟨fun _ => 32, [], []⟩

-- Sanity examples exercising the definitions on concrete inputs.
example : PlicState.read (plic_set_source_priority PLIC_IOBASE stZero 5 3) (PLIC_IOBASE + 20) = 3 := by
  decide

example : plic_source_pending PLIC_IOBASE stOnes 0 = true := by
  decide

example : PlicState.read (plic_enable_source_for_context PLIC_IOBASE stZero 0 5) (PLIC_IOBASE + 0x2000) = 32 := by
  decide

/-
Helper lemmas about the state primitives and the guards of each operation.
-/

theorem read_lt (st : PlicState) (a : Nat) : st.read a < 2 ^ 32 :=
  Nat.mod_lt _ (by decide)

theorem read_store_self (st : PlicState) (a v : Nat) :
    (st.store a v).read a = v % 2 ^ 32 := by
  simp [PlicState.store, PlicState.read]

theorem read_store_ne (st : PlicState) (a a' v : Nat) (h : a' ≠ a) :
    (st.store a v).read a' = st.read a' := by
  simp [PlicState.store, PlicState.read, h]

theorem set_prio_invalid (b : Nat) (st : PlicState) (srcno lvl : Nat)
    (h : srcno > PLIC_SRCCNT ∨ srcno = 0 ∨ lvl < PLIC_PRIO_MIN) :
    plic_set_source_priority b st srcno lvl = st := by
  unfold plic_set_source_priority
  rw [if_pos h]

theorem set_prio_valid (b : Nat) (st : PlicState) (srcno lvl : Nat)
    (h1 : 1 ≤ srcno) (h2 : srcno ≤ PLIC_SRCCNT) :
    plic_set_source_priority b st srcno lvl = st.store (b + 4 * srcno) lvl := by
  unfold plic_set_source_priority
  rw [if_neg]
  simp only [PLIC_SRCCNT, PLIC_PRIO_MIN] at *
  omega

theorem set_prio_read_ne (b : Nat) (st : PlicState) (srcno lvl a : Nat)
    (h : a ≠ b + 4 * srcno) :
    (plic_set_source_priority b st srcno lvl).read a = st.read a := by
  unfold plic_set_source_priority
  split
  · rfl
  · exact read_store_ne _ _ _ _ h

theorem enable_valid (b : Nat) (st : PlicState) (srcno : Nat)
    (h1 : 1 ≤ srcno) (h2 : srcno ≤ PLIC_SRCCNT) :
    plic_enable_source_for_context b st 0 srcno =
      st.store (enable b + 4 * (srcno / 32))
        (st.read (enable b + 4 * (srcno / 32)) ||| (1 <<< (srcno % 32))) := by
  unfold plic_enable_source_for_context
  rw [if_neg]
  simp only [PLIC_SRCCNT] at *
  omega

theorem enable_invalid (b : Nat) (st : PlicState) (ctxno srcno : Nat)
    (h : ctxno ≠ 0 ∨ srcno > PLIC_SRCCNT ∨ srcno = 0) :
    plic_enable_source_for_context b st ctxno srcno = st := by
  unfold plic_enable_source_for_context
  rw [if_pos h]

theorem enable_read_ne (b : Nat) (st : PlicState) (ctxno srcno a : Nat)
    (h : a ≠ enable b + 4 * (srcno / 32)) :
    (plic_enable_source_for_context b st ctxno srcno).read a = st.read a := by
  unfold plic_enable_source_for_context
  split
  · rfl
  · exact read_store_ne _ _ _ _ h

theorem disable_valid (b : Nat) (st : PlicState) (srcid : Nat)
    (h1 : 1 ≤ srcid) (h2 : srcid ≤ PLIC_SRCCNT) :
    plic_disable_source_for_context b st 0 srcid =
      st.store (enable b + 4 * (srcid / 32))
        (st.read (enable b + 4 * (srcid / 32)) &&& (mask32 ^^^ (1 <<< (srcid % 32)))) := by
  unfold plic_disable_source_for_context
  rw [if_neg]
  simp only [PLIC_SRCCNT] at *
  omega

theorem disable_invalid (b : Nat) (st : PlicState) (ctxno srcid : Nat)
    (h : ctxno ≠ 0 ∨ srcid > PLIC_SRCCNT ∨ srcid = 0) :
    plic_disable_source_for_context b st ctxno srcid = st := by
  unfold plic_disable_source_for_context
  rw [if_pos h]

theorem disable_read_ne (b : Nat) (st : PlicState) (ctxno srcid a : Nat)
    (h : a ≠ enable b + 4 * (srcid / 32)) :
    (plic_disable_source_for_context b st ctxno srcid).read a = st.read a := by
  unfold plic_disable_source_for_context
  split
  · rfl
  · exact read_store_ne _ _ _ _ h

theorem threshold_read_ne (b : Nat) (st : PlicState) (ctxno lvl a : Nat)
    (h : a ≠ threshold b) :
    (plic_set_context_threshold b st ctxno lvl).read a = st.read a := by
  unfold plic_set_context_threshold
  split
  · rfl
  · exact read_store_ne _ _ _ _ h

theorem complete_read_ne (b : Nat) (st : PlicState) (ctxno srcno a : Nat)
    (h : a ≠ claim b) :
    (plic_complete_context_interrupt b st ctxno srcno).read a = st.read a := by
  unfold plic_complete_context_interrupt
  split
  · rfl
  · exact read_store_ne _ _ _ _ h

theorem init_loop_read_frame (b : Nat) (st : PlicState) (n a : Nat)
    (hp : ∀ i, 1 ≤ i → a ≠ b + 4 * i)
    (he : ∀ i : Nat, a ≠ enable b + 4 * (i / 32)) :
    (plic_init_loop b st n).read a = st.read a := by
  induction n with
  | zero => rfl
  | succ n ih =>
    show (plic_enable_source_for_context b
        (plic_set_source_priority b (plic_init_loop b st n) n 0) 0 n).read a = st.read a
    rw [enable_read_ne _ _ _ _ _ (he n)]
    rcases Nat.eq_zero_or_pos n with hn | hn
    · subst hn
      rw [set_prio_invalid _ _ _ _ (Or.inr (Or.inl rfl))]
      exact ih
    · rw [set_prio_read_ne _ _ _ _ _ (hp n hn)]
      exact ih

/-- C1: the spec claims `set_source_priority(5, PRIO_MAX + 100)` leaves the
priority register of source 5 holding exactly `PRIO_MAX`; the code instead
writes the unclamped value `PRIO_MAX + 100`, because the clamping statement in
the source sits after the early `return` and is unreachable dead code. -/
theorem C1_clamp_dead_at_failing_input :
    PlicState.read (plic_set_source_priority PLIC_IOBASE stZero 5 (PLIC_PRIO_MAX + 100))
      (PLIC_IOBASE + 4 * 5) = PLIC_PRIO_MAX + 100 ∧
    PLIC_PRIO_MAX + 100 ≠ PLIC_PRIO_MAX := by
  decide

/-- C2: the spec claims every source id at or above SRCCNT = 1024 is silently
ignored by the configuration calls; the boundary id 1024 itself passes the
`srcno > PLIC_SRCCNT` guard, so all four calls perform a register access at
id 1024: the priority write lands at `base + 4096` (the address of the first
pending word), the enable and disable calls modify enable word 32 (outside the
32 words covering sources 0..1023), and the completion call writes 1024 to the
claim register. -/
theorem C2_srccnt_boundary_not_ignored :
    (PlicState.read (plic_set_source_priority PLIC_IOBASE stZero 1024 3)
        (PLIC_IOBASE + 4 * 1024) = 3 ∧
      PlicState.read stZero (PLIC_IOBASE + 4 * 1024) = 0) ∧
    (PlicState.read (plic_enable_source_for_context PLIC_IOBASE stZero 0 1024)
        (PLIC_IOBASE + 0x2000 + 4 * 32) = 1 ∧
      PlicState.read stZero (PLIC_IOBASE + 0x2000 + 4 * 32) = 0) ∧
    (PlicState.read (plic_disable_source_for_context PLIC_IOBASE stOnes 0 1024)
        (PLIC_IOBASE + 0x2000 + 4 * 32) = 0 ∧
      PlicState.read stOnes (PLIC_IOBASE + 0x2000 + 4 * 32) = 1) ∧
    (PlicState.read (plic_complete_context_interrupt PLIC_IOBASE stZero 0 1024)
        (PLIC_IOBASE + 0x200004) = 1024 ∧
      PlicState.read stZero (PLIC_IOBASE + 0x200004) = 0) := by
  decide

/-- C6: the spec claims `source_pending` returns false for every id outside
[1, SRCCNT-1]; the code checks only `srcno > SRCCNT`, so for the reserved id 0
it reads bit 0 of pending word 0 and reports it, and for the boundary id 1024
it reads bit 0 of pending word 32 (beyond the words covering sources 0..1023)
and reports it: in a state where those bits are set, both calls return true. -/
theorem C6_pending_reserved_and_boundary_not_false :
    plic_source_pending PLIC_IOBASE stOnes 0 = true ∧
    plic_source_pending PLIC_IOBASE stOnes 1024 = true := by
  decide

/-- C10: the spec claims `enable_irq(irqno, p)` is a silent no-op for every
invalid source id; for the boundary id 1024 (not a valid source id, since the
valid ids are 1..1023) the call writes the priority value to `base + 4 * 1024`,
the address of the first pending word. The diagnostic channel stays empty. -/
theorem C10_enable_irq_boundary_writes :
    PlicState.read (plic_enable_irq PLIC_IOBASE stZero 1024 3) (PLIC_IOBASE + 4 * 1024) = 3 ∧
    PlicState.read stZero (PLIC_IOBASE + 4 * 1024) = 0 ∧
    (plic_enable_irq PLIC_IOBASE stZero 1024 3).dbg = [] := by
  decide

/-- C4 counterexample: with the enable bit of source 5 already set in the
starting state (enable word 0 reads 32), enabling then disabling source 5
leaves the word reading 0, not its pre-enable value 32, so the round trip does
not restore an arbitrary starting bitmap. -/
theorem C4_roundtrip_fails_with_bit_set :
    PlicState.read (plic_disable_source_for_context PLIC_IOBASE
        (plic_enable_source_for_context PLIC_IOBASE stThirtyTwo 0 5) 0 5)
      (PLIC_IOBASE + 0x2000) = 0 ∧
    PlicState.read stThirtyTwo (PLIC_IOBASE + 0x2000) = 32 := by
  decide

/-- C7 counterexample: `disable_irq(2000)` has a positive argument but performs
no write, because 2000 exceeds SRCCNT and `plic_set_source_priority` rejects
it: the priority cell at `base + 4 * 2000` still reads 5 afterwards, while the
claim requires it to hold the minimum priority. -/
theorem C7_disable_irq_positive_out_of_range :
    PlicState.read (plic_disable_irq PLIC_IOBASE stFive 2000) (PLIC_IOBASE + 4 * 2000) = 5 ∧
    (5 : Nat) ≠ PLIC_PRIO_MIN := by
  decide

/-- C8 counterexample: `set_context_threshold(0, PRIO_MAX + 100)` writes the
value through unclamped: the threshold register reads `PRIO_MAX + 100`
afterwards, not `PRIO_MAX`. -/
theorem C8_threshold_not_clamped :
    PlicState.read (plic_set_context_threshold PLIC_IOBASE stZero 0 (PLIC_PRIO_MAX + 100))
      (PLIC_IOBASE + 0x200000) = PLIC_PRIO_MAX + 100 ∧
    PLIC_PRIO_MAX + 100 ≠ PLIC_PRIO_MAX := by
  decide

/-- C3 counterexample: starting from a state in which every cell reads 5,
`plic_init` leaves the priority register of source 0 (at `base + 4 * 0`)
reading 5, not `PRIO_MIN`: both calls of the loop body reject source id 0, so
source 0 is never initialized. -/
theorem C3_source_zero_untouched :
    PlicState.read (plic_init PLIC_IOBASE stFive) (PLIC_IOBASE + 4 * 0) = 5 ∧
    (5 : Nat) ≠ PLIC_PRIO_MIN := by
  constructor
  · unfold plic_init
    rw [init_loop_read_frame _ _ _ _ (fun i hi => by omega)
        (fun i => by simp only [enable]; omega)]
    decide
  · decide

/-
Bit-level helper lemmas for the read-modify-write enable and disable paths.
-/

theorem testBit_or_store_self (st : PlicState) (a k : Nat) (hk : k < 32) :
    Nat.testBit ((st.store a (st.read a ||| (1 <<< k))).read a) k = true := by
  rw [read_store_self, Nat.testBit_mod_two_pow, Nat.testBit_or, Nat.shiftLeft_eq, one_mul]
  simp [hk, Nat.testBit_two_pow_self]

theorem testBit_or_store_same (st : PlicState) (a k j : Nat) (hj : j < 32)
    (h : Nat.testBit (st.read a) j = true) :
    Nat.testBit ((st.store a (st.read a ||| (1 <<< k))).read a) j = true := by
  rw [read_store_self, Nat.testBit_mod_two_pow, Nat.testBit_or, h]
  simp [hj]

theorem testBit_or_store_other (st : PlicState) (a k j : Nat) (hj : j < 32) (hjk : j ≠ k) :
    Nat.testBit ((st.store a (st.read a ||| (1 <<< k))).read a) j =
      Nat.testBit (st.read a) j := by
  rw [read_store_self, Nat.testBit_mod_two_pow, Nat.testBit_or, Nat.shiftLeft_eq, one_mul,
    Nat.testBit_two_pow_of_ne (fun h => hjk h.symm)]
  simp [hj]

theorem testBit_and_store_self (st : PlicState) (a k : Nat) (hk : k < 32) :
    Nat.testBit ((st.store a (st.read a &&& (mask32 ^^^ (1 <<< k)))).read a) k = false := by
  rw [read_store_self, Nat.testBit_mod_two_pow, Nat.testBit_and, Nat.testBit_xor,
    Nat.shiftLeft_eq, one_mul, mask32, Nat.testBit_two_pow_sub_one, Nat.testBit_two_pow_self]
  simp [hk]

theorem testBit_and_store_other (st : PlicState) (a k j : Nat) (hj : j < 32) (hjk : j ≠ k) :
    Nat.testBit ((st.store a (st.read a &&& (mask32 ^^^ (1 <<< k)))).read a) j =
      Nat.testBit (st.read a) j := by
  rw [read_store_self, Nat.testBit_mod_two_pow, Nat.testBit_and, Nat.testBit_xor,
    Nat.shiftLeft_eq, one_mul, mask32, Nat.testBit_two_pow_sub_one,
    Nat.testBit_two_pow_of_ne (fun h => hjk h.symm)]
  simp [hj]

theorem or_and_mask_cancel (w k : Nat) (hw : w < 2 ^ 32) (hk : k < 32)
    (hbit : w.testBit k = false) :
    (w ||| 2 ^ k) &&& (mask32 ^^^ 2 ^ k) = w := by
  apply Nat.eq_of_testBit_eq
  intro j
  rw [Nat.testBit_and, Nat.testBit_or, Nat.testBit_xor, mask32, Nat.testBit_two_pow_sub_one]
  by_cases hjk : j = k
  · subst hjk
    simp [Nat.testBit_two_pow_self, hk, hbit]
  · rw [Nat.testBit_two_pow_of_ne (fun h => hjk h.symm)]
    by_cases hj32 : j < 32
    · simp [hj32]
    · have hwj : w.testBit j = false :=
        Nat.testBit_lt_two_pow
          (lt_of_lt_of_le hw (Nat.pow_le_pow_right (by norm_num) (by omega)))
      simp [hj32, hwj]

theorem init_loop_inv (b : Nat) (st : PlicState) :
    ∀ n, n ≤ 1024 → ∀ s, 1 ≤ s → s < n →
      (plic_init_loop b st n).read (b + 4 * s) = 0 ∧
      Nat.testBit ((plic_init_loop b st n).read (enable b + 4 * (s / 32))) (s % 32) = true := by
  intro n
  induction n with
  | zero =>
    intro _ s h1 h2
    omega
  | succ n ih =>
    intro hn s h1 h2
    have hn1 : 1 ≤ n := by omega
    have hn1024 : n ≤ 1024 := by omega
    have hstep : plic_init_loop b st (n + 1) =
        ((plic_init_loop b st n).store (b + 4 * n) 0).store
          (enable b + 4 * (n / 32))
          (((plic_init_loop b st n).store (b + 4 * n) 0).read (enable b + 4 * (n / 32)) |||
            (1 <<< (n % 32))) := by
      show plic_enable_source_for_context b
          (plic_set_source_priority b (plic_init_loop b st n) n 0) 0 n = _
      rw [set_prio_valid _ _ _ _ hn1 (by simp only [PLIC_SRCCNT]; omega),
        enable_valid _ _ _ hn1 (by simp only [PLIC_SRCCNT]; omega)]
    rw [hstep]
    by_cases hsn : s = n
    · subst hsn
      constructor
      · rw [read_store_ne _ _ _ _ (by simp only [enable]; omega),
          read_store_self]
        omega
      · exact testBit_or_store_self _ _ _ (Nat.mod_lt _ (by omega))
    · have hslt : s < n := by omega
      have ihs := ih hn1024 s h1 hslt
      constructor
      · rw [read_store_ne _ _ _ _ (by simp only [enable]; omega),
          read_store_ne _ _ _ _ (by omega)]
        exact ihs.1
      · by_cases hw : s / 32 = n / 32
        · rw [hw]
          apply testBit_or_store_same _ _ _ _ (Nat.mod_lt _ (by omega))
          rw [read_store_ne _ _ _ _ (by simp only [enable]; omega)]
          rw [← hw]
          exact ihs.2
        · rw [read_store_ne _ _ _ _ (by simp only [enable]; omega),
            read_store_ne _ _ _ _ (by simp only [enable]; omega)]
          exact ihs.2

/-- C3 amended: after `plic_init`, every source id from 1 through SRCCNT-1 has
its priority register reading `PRIO_MIN` and its enable bit for context 0 set;
source id 0 is excluded, because both calls of the loop body reject id 0, so
the registers of source 0 keep whatever value the starting state gave them
(the counterexample above exhibits this). -/
theorem C3_init_establishes_sources (b : Nat) (st : PlicState) (s : Nat)
    (h1 : 1 ≤ s) (h2 : s < PLIC_SRCCNT) :
    (plic_init b st).read (b + 4 * s) = PLIC_PRIO_MIN ∧
    Nat.testBit ((plic_init b st).read (enable b + 4 * (s / 32))) (s % 32) = true := by
  have h := init_loop_inv b st 1024 (le_refl _) s h1 (by simp only [PLIC_SRCCNT] at h2; omega)
  exact ⟨h.1, h.2⟩

/-- Witness for the C3 theorem: source 5 starting from the all-zero state. -/
theorem C3_init_witness :
    PlicState.read (plic_init PLIC_IOBASE stZero) (PLIC_IOBASE + 4 * 5) = PLIC_PRIO_MIN ∧
    Nat.testBit (PlicState.read (plic_init PLIC_IOBASE stZero)
      (enable PLIC_IOBASE + 4 * (5 / 32))) (5 % 32) = true :=
  C3_init_establishes_sources PLIC_IOBASE stZero 5 (by decide) (by decide)

/-- C4 amended: for every source id and every starting state in which the
enable bit of that source (bit `s % 32` of enable word `s / 32`) is clear, an
enable followed by a disable of the same source restores every register read
to its pre-enable value; throughout, the enable step changes no register other
than that one enable word and, within it, no bit other than bit `s % 32`. The
restriction to a clear starting bit is forced by the counterexample above: the
write pair sets then clears the bit, so a starting state with the bit already
set is not restored. -/
theorem C4_enable_disable_roundtrip (b : Nat) (st : PlicState) (s : Nat)
    (hbit : Nat.testBit (st.read (enable b + 4 * (s / 32))) (s % 32) = false) :
    (∀ a, (plic_disable_source_for_context b
        (plic_enable_source_for_context b st 0 s) 0 s).read a = st.read a) ∧
    (∀ a, a ≠ enable b + 4 * (s / 32) →
      (plic_enable_source_for_context b st 0 s).read a = st.read a) ∧
    (∀ j, j < 32 → j ≠ s % 32 →
      Nat.testBit ((plic_enable_source_for_context b st 0 s).read
        (enable b + 4 * (s / 32))) j =
        Nat.testBit (st.read (enable b + 4 * (s / 32))) j) := by
  by_cases hv : s > PLIC_SRCCNT ∨ s = 0
  · have he : plic_enable_source_for_context b st 0 s = st :=
      enable_invalid _ _ _ _ (Or.inr hv)
    rw [he, disable_invalid _ _ _ _ (Or.inr hv)]
    exact ⟨fun a => rfl, fun a _ => rfl, fun j _ _ => rfl⟩
  · push_neg at hv
    have h1 : 1 ≤ s := by omega
    have hk : s % 32 < 32 := Nat.mod_lt _ (by omega)
    have hw : st.read (enable b + 4 * (s / 32)) < 2 ^ 32 := read_lt _ _
    rw [enable_valid _ _ _ h1 hv.1, disable_valid _ _ _ h1 hv.1]
    refine ⟨fun a => ?_, fun a ha => read_store_ne _ _ _ _ ha,
      fun j hj hjk => testBit_or_store_other st _ _ _ hj hjk⟩
    by_cases ha : a = enable b + 4 * (s / 32)
    · subst ha
      rw [read_store_self, read_store_self]
      have h2k : (1 <<< (s % 32)) < 2 ^ 32 := by
        rw [Nat.shiftLeft_eq, one_mul]
        exact Nat.pow_lt_pow_right (by norm_num) hk
      rw [Nat.mod_eq_of_lt (Nat.or_lt_two_pow hw h2k), Nat.shiftLeft_eq, one_mul,
        or_and_mask_cancel _ _ hw hk hbit, Nat.mod_eq_of_lt hw]
    · rw [read_store_ne _ _ _ _ ha, read_store_ne _ _ _ _ ha]

/-- Witness for the C4 theorem: source 5 on the all-zero state (bit clear),
checking that the round trip restores the enable word read. -/
theorem C4_roundtrip_witness :
    PlicState.read (plic_disable_source_for_context PLIC_IOBASE
        (plic_enable_source_for_context PLIC_IOBASE stZero 0 5) 0 5)
      (PLIC_IOBASE + 0x2000) = PlicState.read stZero (PLIC_IOBASE + 0x2000) :=
  (C4_enable_disable_roundtrip PLIC_IOBASE stZero 5 (by decide)).1 (PLIC_IOBASE + 0x2000)

/-- C5: for every valid source id `s` in [1, SRCCNT-1], enabling sets exactly
bit `s % 32` of enable word `s / 32` — the bit reads true afterwards, every
other bit of that 32-bit word is preserved bit-for-bit, and every other
address (in particular every other enable word) is untouched — and disabling
symmetrically clears exactly that bit. -/
theorem C5_single_bit_effect (b : Nat) (st : PlicState) (s : Nat)
    (h1 : 1 ≤ s) (h2 : s < PLIC_SRCCNT) :
    (Nat.testBit ((plic_enable_source_for_context b st 0 s).read
        (enable b + 4 * (s / 32))) (s % 32) = true ∧
      (∀ j, j < 32 → j ≠ s % 32 →
        Nat.testBit ((plic_enable_source_for_context b st 0 s).read
          (enable b + 4 * (s / 32))) j =
          Nat.testBit (st.read (enable b + 4 * (s / 32))) j) ∧
      (∀ a, a ≠ enable b + 4 * (s / 32) →
        (plic_enable_source_for_context b st 0 s).read a = st.read a)) ∧
    (Nat.testBit ((plic_disable_source_for_context b st 0 s).read
        (enable b + 4 * (s / 32))) (s % 32) = false ∧
      (∀ j, j < 32 → j ≠ s % 32 →
        Nat.testBit ((plic_disable_source_for_context b st 0 s).read
          (enable b + 4 * (s / 32))) j =
          Nat.testBit (st.read (enable b + 4 * (s / 32))) j) ∧
      (∀ a, a ≠ enable b + 4 * (s / 32) →
        (plic_disable_source_for_context b st 0 s).read a = st.read a)) := by
  have hs : s ≤ PLIC_SRCCNT := le_of_lt h2
  have hk : s % 32 < 32 := Nat.mod_lt _ (by omega)
  rw [enable_valid _ _ _ h1 hs, disable_valid _ _ _ h1 hs]
  exact ⟨⟨testBit_or_store_self st _ _ hk,
      fun j hj hjk => testBit_or_store_other st _ _ _ hj hjk,
      fun a ha => read_store_ne _ _ _ _ ha⟩,
    ⟨testBit_and_store_self st _ _ hk,
      fun j hj hjk => testBit_and_store_other st _ _ _ hj hjk,
      fun a ha => read_store_ne _ _ _ _ ha⟩⟩

/-- Witness for the C5 theorem: enabling source 5 on the all-zero state sets
its bit; disabling source 5 on the state whose enable word reads 32 clears it. -/
theorem C5_witness :
    Nat.testBit (PlicState.read (plic_enable_source_for_context PLIC_IOBASE stZero 0 5)
      (enable PLIC_IOBASE + 4 * (5 / 32))) (5 % 32) = true ∧
    Nat.testBit (PlicState.read (plic_disable_source_for_context PLIC_IOBASE stThirtyTwo 0 5)
      (enable PLIC_IOBASE + 4 * (5 / 32))) (5 % 32) = false :=
  ⟨(C5_single_bit_effect PLIC_IOBASE stZero 5 (by decide) (by decide)).1.1,
   (C5_single_bit_effect PLIC_IOBASE stThirtyTwo 5 (by decide) (by decide)).2.1⟩

theorem toU32_eq_toNat (i : Int) (h0 : 0 ≤ i) (h1 : i < (2 : Int) ^ 32) :
    toU32 i = i.toNat := by
  unfold toU32
  rw [Int.emod_eq_of_lt h0 h1]

/-- C7 amended: `disable_irq(irq)` writes the minimum priority to the priority
register of `irq` when `0 < irq ≤ SRCCNT`, emitting no diagnostic; for a
positive `irq` above SRCCNT (any value a C `int` can hold) it changes nothing
at all and emits no diagnostic either; and for `irq ≤ 0` it performs no
register write and logs one diagnostic carrying `irq`. The original claim
fails only in placing every positive `irq` in the first case: a positive id
above SRCCNT falls through `plic_set_source_priority` as a silent no-op. -/
theorem C7_disable_irq_cases (b : Nat) (st : PlicState) (irq : Int) :
    (0 < irq → irq ≤ 1024 →
      (plic_disable_irq b st irq).read (b + 4 * irq.toNat) = PLIC_PRIO_MIN ∧
      (∀ a, a ≠ b + 4 * irq.toNat → (plic_disable_irq b st irq).read a = st.read a) ∧
      (plic_disable_irq b st irq).dbg = st.dbg) ∧
    (1024 < irq → irq < 2 ^ 31 → plic_disable_irq b st irq = st) ∧
    (irq ≤ 0 →
      (plic_disable_irq b st irq).mem = st.mem ∧
      (plic_disable_irq b st irq).dbg = irq :: st.dbg) := by
  refine ⟨fun hp hle => ?_, fun hgt hlt31 => ?_, fun hle => ?_⟩
  · have ht : toU32 irq = irq.toNat :=
      toU32_eq_toNat irq (le_of_lt hp) (lt_of_le_of_lt hle (by norm_num))
    have h1n : 1 ≤ irq.toNat := by omega
    have h2n : irq.toNat ≤ PLIC_SRCCNT := by simp only [PLIC_SRCCNT]; omega
    unfold plic_disable_irq
    rw [if_pos hp, ht, set_prio_valid _ _ _ _ h1n h2n]
    refine ⟨?_, fun a ha => read_store_ne _ _ _ _ ha, rfl⟩
    rw [read_store_self]
    decide
  · have ht : toU32 irq = irq.toNat :=
      toU32_eq_toNat irq (by omega) (lt_trans hlt31 (by norm_num))
    unfold plic_disable_irq
    rw [if_pos (by omega : (0 : Int) < irq), ht]
    apply set_prio_invalid
    left
    simp only [PLIC_SRCCNT]
    omega
  · unfold plic_disable_irq
    rw [if_neg (by omega : ¬ (0 : Int) < irq)]
    exact ⟨rfl, rfl⟩

/-- Witness for the C7 theorem: the valid id 5 gets its priority register set
to the minimum, and the spec scenario `disable_irq(-1)` logs a diagnostic. -/
theorem C7_witness :
    PlicState.read (plic_disable_irq PLIC_IOBASE stFive 5) (PLIC_IOBASE + 4 * (5 : Int).toNat)
      = PLIC_PRIO_MIN ∧
    (plic_disable_irq PLIC_IOBASE stZero (-1)).dbg = [-1] :=
  ⟨((C7_disable_irq_cases PLIC_IOBASE stFive 5).1 (by decide) (by decide)).1,
   ((C7_disable_irq_cases PLIC_IOBASE stZero (-1)).2.2 (by decide)).2⟩

/-- C8 amended: `set_context_threshold(0, L)` writes `L` through to the
context-0 threshold register unclamped — afterwards the register reads `L`
itself, including for `L` above `PRIO_MAX` — and changes no other address.
The original clamping claim fails as the counterexample above shows: the
function contains no clamping at all. -/
theorem C8_threshold_write_through (b : Nat) (st : PlicState) (lvl : Nat)
    (h : lvl < 2 ^ 32) :
    (plic_set_context_threshold b st 0 lvl).read (threshold b) = lvl ∧
    (∀ a, a ≠ threshold b → (plic_set_context_threshold b st 0 lvl).read a = st.read a) := by
  unfold plic_set_context_threshold
  rw [if_neg (by simp)]
  exact ⟨by rw [read_store_self]; omega, fun a ha => read_store_ne _ _ _ _ ha⟩

/-- Witness for the C8 theorem: writing 107 = PRIO_MAX + 100 to the threshold
register leaves it reading 107. -/
theorem C8_witness :
    PlicState.read (plic_set_context_threshold PLIC_IOBASE stZero 0 107)
      (threshold PLIC_IOBASE) = 107 :=
  (C8_threshold_write_through PLIC_IOBASE stZero 107 (by decide)).1

theorem complete_valid (b : Nat) (st : PlicState) (srcno : Nat)
    (h1 : 1 ≤ srcno) (h2 : srcno ≤ PLIC_SRCCNT) :
    plic_complete_context_interrupt b st 0 srcno = st.store (claim b) srcno := by
  unfold plic_complete_context_interrupt
  rw [if_neg]
  simp only [PLIC_SRCCNT] at *
  omega

theorem pending_testBit (b : Nat) (st : PlicState) (s : Nat) (h : s ≤ PLIC_SRCCNT) :
    plic_source_pending b st s =
      Nat.testBit (st.read (pending b + 4 * (s / 32))) (s % 32) := by
  unfold plic_source_pending
  rw [if_neg (by omega)]
  show decide (0 < st.read (pending b + 4 * (s / 32)) &&& (1 <<< (s % 32))) = _
  rw [Nat.shiftLeft_eq, one_mul, Nat.and_two_pow]
  cases hb : Nat.testBit (st.read (pending b + 4 * (s / 32))) (s % 32)
  · simp
  · simp [Nat.two_pow_pos]

/-- C9: every register access computes its address from the configurable base
alone, at the documented offset. For every base `b`, valid source id `s`, and
32-bit level: the priority write of `s` lands at `b + 4*s` and touches nothing
else; the pending check reads bit `s % 32` of the word at
`b + 0x1000 + 4*(s/32)`; enable and disable touch no address other than
`b + 0x2000 + 4*(s/32)`; the threshold write lands at `b + 0x200000` and
touches nothing else; the claim read returns the word at `b + 0x200004`; and
the completion write lands at `b + 0x200004` and touches nothing else. -/
theorem C9_addresses_relocatable (b : Nat) (st : PlicState) (s lvl : Nat)
    (h1 : 1 ≤ s) (h2 : s < PLIC_SRCCNT) (h3 : lvl < 2 ^ 32) :
    ((plic_set_source_priority b st s lvl).read (b + 4 * s) = lvl ∧
      (∀ a, a ≠ b + 4 * s → (plic_set_source_priority b st s lvl).read a = st.read a)) ∧
    (plic_source_pending b st s =
      Nat.testBit (st.read (b + 0x1000 + 4 * (s / 32))) (s % 32)) ∧
    (∀ a, a ≠ b + 0x2000 + 4 * (s / 32) →
      (plic_enable_source_for_context b st 0 s).read a = st.read a) ∧
    (∀ a, a ≠ b + 0x2000 + 4 * (s / 32) →
      (plic_disable_source_for_context b st 0 s).read a = st.read a) ∧
    ((plic_set_context_threshold b st 0 lvl).read (b + 0x200000) = lvl ∧
      (∀ a, a ≠ b + 0x200000 → (plic_set_context_threshold b st 0 lvl).read a = st.read a)) ∧
    (plic_claim_context_interrupt b st 0 = st.read (b + 0x200004)) ∧
    ((plic_complete_context_interrupt b st 0 s).read (b + 0x200004) = s ∧
      (∀ a, a ≠ b + 0x200004 → (plic_complete_context_interrupt b st 0 s).read a = st.read a)) := by
  have hs : s ≤ PLIC_SRCCNT := le_of_lt h2
  have hs32 : s < 2 ^ 32 := by simp only [PLIC_SRCCNT] at h2; omega
  refine ⟨⟨?_, fun a ha => set_prio_read_ne _ _ _ _ _ ha⟩,
    pending_testBit b st s hs,
    fun a ha => enable_read_ne _ _ _ _ _ ha,
    fun a ha => disable_read_ne _ _ _ _ _ ha,
    ⟨?_, fun a ha => threshold_read_ne _ _ _ _ _ ha⟩,
    rfl,
    ⟨?_, fun a ha => complete_read_ne _ _ _ _ _ ha⟩⟩
  · rw [set_prio_valid _ _ _ _ h1 hs, read_store_self]
    omega
  · unfold plic_set_context_threshold
    rw [if_neg (by simp)]
    unfold threshold
    rw [read_store_self]
    omega
  · rw [complete_valid _ _ _ h1 hs]
    unfold claim
    rw [read_store_self]
    omega

/-- Witness for the C9 theorem: base 0x0C000000, source 5, level 3, on the
all-zero state. -/
theorem C9_witness :
    PlicState.read (plic_set_source_priority PLIC_IOBASE stZero 5 3) (PLIC_IOBASE + 4 * 5) = 3 ∧
    plic_source_pending PLIC_IOBASE stZero 5 =
      Nat.testBit (PlicState.read stZero (PLIC_IOBASE + 0x1000 + 4 * (5 / 32))) (5 % 32) ∧
    plic_claim_context_interrupt PLIC_IOBASE stZero 0 =
      PlicState.read stZero (PLIC_IOBASE + 0x200004) := by
  have h := C9_addresses_relocatable PLIC_IOBASE stZero 5 3 (by decide) (by decide) (by decide)
  exact ⟨h.1.1, h.2.1, h.2.2.2.2.2.1⟩
